import Mathlib

/-!
Verification development for the Fitness-Coach model-loading orchestration
and nutrition-calculation code.

The definitions below are a shallow embedding of:
  - src/Health-Fitness-Coach-main/src/hooks/useModelLoader.ts (per-component hook),
  - the GlobalModelLoaderProvider (global per-category loader with in-flight
    coalescing by polling),
  - src/Health-Fitness-Coach-main/src/components/ModelBanner.tsx,
  - the nutrition BMR/TDEE calculations (calcBMR, calcTDEE, activityMultiplier).

The external SDK (ModelManager, EventBus) is modelled as an environment record:
query results, event streams and call outcomes observed by one run of ensure().
JavaScript numbers are modelled as rationals.
-/

namespace FitnessCoach

/-- The model categories of the external SDK enum used by the app. -/
inductive ModelCategory
  | language
  | multimodal
  | speechRecognition
  | speechSynthesis
  | audio
deriving DecidableEq, Repr

/-- The string value of a category, as interpolated into template strings. -/
def categoryName : ModelCategory → String
  | .language => "Language"
  | .multimodal => "Multimodal"
  | .speechRecognition => "SpeechRecognition"
  | .speechSynthesis => "SpeechSynthesis"
  | .audio => "Audio"

/-- Loader lifecycle state, from useModelLoader.ts. -/
inductive LoaderState
  | idle
  | downloading
  | loading
  | ready
  | error
deriving DecidableEq, Repr

/-- Status of a registered model as reported by the external manager. -/
inductive ModelStatus
  | notDownloaded
  | downloading
  | downloaded
  | loaded
deriving DecidableEq, Repr

/-- A registered model descriptor (fields the loader code reads). -/
structure ModelInfo where
  id : Nat
  modality : ModelCategory
  status : ModelStatus
deriving DecidableEq, Repr

/-- Per-category loader state: state, progress, error (ModelLoaderState). -/
structure ModelLoaderState where
  state : LoaderState
  progress : ℚ
  error : Option String
deriving DecidableEq, Repr

/-- A partial update as passed to updateLoader (a TS Partial record). -/
structure Patch where
  state : Option LoaderState := none
  progress : Option ℚ := none
  error : Option (Option String) := none

/-- Spread-merge of a partial update into the current state, as in
updateLoader's next.set(category, spread of current and patch). -/
def applyPatch (cur : ModelLoaderState) (p : Patch) : ModelLoaderState :=
  { state := p.state.getD cur.state
    progress := p.progress.getD cur.progress
    error := p.error.getD cur.error }

/-- A model.downloadProgress event: carries a model id and an optional
fractional progress value (evt.progress may be absent, defaulted to 0). -/
structure ProgressEvent where
  modelId : Nat
  progress : Option ℚ
deriving DecidableEq, Repr

/-- One observation made by a tick of the 500ms polling loop in the
in-flight branch of the global ensure: whether the manager reports a
loaded model for the category, and the shared loader state seen. -/
structure Obs where
  loaded : Bool
  st : LoaderState
deriving DecidableEq, Repr

/-- The polling loop of the in-flight branch: each tick first resolves true
if the manager reports the model loaded, otherwise resolves false if the
shared state is error, otherwise keeps polling.  none means the given
observation sequence never resolves the promise. -/
def pollLoop : List Obs → Option Bool
  | [] => none
  | o :: rest =>
    if o.loaded then some true
    else if o.st = LoaderState.error then some false
    else pollLoop rest

/-- The environment one run of ensure() observes from the external SDK:
the initial getLoadedModel query, the registered model list, the progress
events delivered while awaiting downloadModel, the outcome of the
downloadModel call, the outcome of the loadModel call, and — when the run
takes the in-flight branch — the sequence of polling observations. -/
structure EnsureEnv where
  alreadyLoaded : Bool
  models : List ModelInfo
  progressEvents : List ProgressEvent
  downloadResult : Except String Unit
  loadResult : Except String Bool
  pollObs : List Obs

/-- The outcome of one run of the global ensure(): the resolved boolean
(none when the polling branch never resolves), the sequence of loader-state
snapshots after each updateLoader call, the final loader state, whether the
external download and load calls were invoked, and whether the category is
still marked in-flight afterwards. -/
structure EnsureResult where
  result : Option Bool
  snapshots : List ModelLoaderState
  finalLoader : ModelLoaderState
  downloadInvoked : Bool
  loadInvoked : Bool
  inFlightAfter : Bool

/-- Snapshots produced by the model.downloadProgress subscription: for each
event whose modelId matches, updateLoader patches progress to the event's
value (defaulted to 0).  Returns the snapshot list and the state after the
last matching event. -/
def progressFold (modelId : Nat) :
    List ProgressEvent → ModelLoaderState → List ModelLoaderState × ModelLoaderState
  | [], s => ([], s)
  | e :: rest, s =>
    if e.modelId = modelId then
      let s1 := applyPatch s { progress := some (e.progress.getD 0) }
      let r := progressFold modelId rest s1
      (s1 :: r.1, r.2)
    else progressFold modelId rest s

/-- The load phase of the global ensure: transition to loading, await
loadModel, then ready on true, error with a fixed message on false, error
with the thrown message on an exception.  pre are the snapshots already
produced, base the loader state entering the phase, dl whether the download
call was invoked earlier in this run.  The finally clause has run, so the
in-flight marker is clear. -/
def loadPhase (env : EnsureEnv) (pre : List ModelLoaderState)
    (base : ModelLoaderState) (dl : Bool) : EnsureResult :=
  let sLoad := applyPatch base { state := some LoaderState.loading }
  match env.loadResult with
  | .ok true =>
    let sReady := applyPatch sLoad { state := some LoaderState.ready }
    { result := some true, snapshots := pre ++ [sLoad, sReady], finalLoader := sReady
      downloadInvoked := dl, loadInvoked := true, inFlightAfter := false }
  | .ok false =>
    let sErr := applyPatch sLoad
      { state := some LoaderState.error, error := some (some "Failed to load model") }
    { result := some false, snapshots := pre ++ [sLoad, sErr], finalLoader := sErr
      downloadInvoked := dl, loadInvoked := true, inFlightAfter := false }
  | .error msg =>
    let sErr := applyPatch sLoad
      { state := some LoaderState.error, error := some (some msg) }
    { result := some false, snapshots := pre ++ [sLoad, sErr], finalLoader := sErr
      downloadInvoked := dl, loadInvoked := true, inFlightAfter := false }

/-- The body of the global ensure() after the category was marked in-flight
(the try block, with the finally clause clearing the marker folded into
every exit): filter the registered models by modality, error out when none
matches, otherwise download first when the selected model is neither
downloaded nor loaded (progress 0, progress events, then progress forced to
1 on success), then run the load phase. -/
def ensureBody (cat : ModelCategory) (env : EnsureEnv)
    (cur : ModelLoaderState) : EnsureResult :=
  match env.models.filter (fun m => m.modality = cat) with
  | [] =>
    let sErr := applyPatch cur
      { state := some LoaderState.error
        error := some (some ("No " ++ categoryName cat ++ " model registered")) }
    { result := some false, snapshots := [sErr], finalLoader := sErr
      downloadInvoked := false, loadInvoked := false, inFlightAfter := false }
  | model :: _ =>
    if model.status ≠ ModelStatus.downloaded ∧ model.status ≠ ModelStatus.loaded then
      let s1 := applyPatch cur
        { state := some LoaderState.downloading, progress := some 0 }
      let ev := progressFold model.id env.progressEvents s1
      match env.downloadResult with
      | .error msg =>
        let sErr := applyPatch ev.2
          { state := some LoaderState.error, error := some (some msg) }
        { result := some false, snapshots := s1 :: ev.1 ++ [sErr], finalLoader := sErr
          downloadInvoked := true, loadInvoked := false, inFlightAfter := false }
      | .ok _ =>
        let s3 := applyPatch ev.2 { progress := some 1 }
        loadPhase env (s1 :: ev.1 ++ [s3]) s3 true
    else
      loadPhase env [] cur false

/-- One run of the global GlobalModelLoaderProvider.ensure(category):
short-circuit to ready when the manager already reports a loaded model;
poll the shared state when the category is already in-flight; otherwise
mark in-flight and run the download/load body. -/
def ensure (cat : ModelCategory) (env : EnsureEnv) (inFlight : Bool)
    (cur : ModelLoaderState) : EnsureResult :=
  if env.alreadyLoaded then
    let sReady := applyPatch cur { state := some LoaderState.ready }
    { result := some true, snapshots := [sReady], finalLoader := sReady
      downloadInvoked := false, loadInvoked := false, inFlightAfter := inFlight }
  else if inFlight then
    { result := pollLoop env.pollObs, snapshots := [], finalLoader := cur
      downloadInvoked := false, loadInvoked := false, inFlightAfter := inFlight }
  else
    ensureBody cat env cur

/-- The ModelManager.onChange reconciliation applied to one tracked entry:
set ready when the manager reports a loaded model and the state is not
ready; set idle when it reports none and the state is ready; otherwise
leave the entry unchanged. -/
def reconcileEntry (q : ModelCategory → Bool)
    (e : ModelCategory × ModelLoaderState) : ModelCategory × ModelLoaderState :=
  if q e.1 then
    if e.2.state = LoaderState.ready then e
    else (e.1, { e.2 with state := LoaderState.ready })
  else
    if e.2.state = LoaderState.ready then (e.1, { e.2 with state := LoaderState.idle })
    else e

/-- The ModelManager.onChange handler of the global provider: reconcile
every tracked category against the manager's loaded-model query. -/
def reconcile (q : ModelCategory → Bool)
    (loaders : List (ModelCategory × ModelLoaderState)) :
    List (ModelCategory × ModelLoaderState) :=
  loaders.map (reconcileEntry q)

/-- Initial per-category state at provider mount: ready when the manager
already reports a loaded model, else idle; progress 0, no error. -/
def getInitialState (q : ModelCategory → Bool) (cat : ModelCategory) :
    ModelLoaderState :=
  { state := if q cat then LoaderState.ready else LoaderState.idle
    progress := 0, error := none }

/-- Outcome of one run of the per-component useModelLoader ensure(). -/
structure LocalResult where
  result : Bool
  snapshots : List ModelLoaderState
  downloadInvoked : Bool
  loadInvoked : Bool
  loadingRefAfter : Bool

/-- One run of the per-component useModelLoader().ensure: short-circuit to
ready when a model is already loaded; return false immediately when this
hook instance's loadingRef is set; otherwise set the ref and run the
download/load sequence (setError and setState are separate updates, so the
error branches produce two snapshots), clearing the ref in the finally. -/
def ensureLocal (cat : ModelCategory) (env : EnsureEnv) (loadingRef : Bool)
    (cur : ModelLoaderState) : LocalResult :=
  if env.alreadyLoaded then
    { result := true
      snapshots := [applyPatch cur { state := some LoaderState.ready }]
      downloadInvoked := false, loadInvoked := false, loadingRefAfter := loadingRef }
  else if loadingRef then
    { result := false, snapshots := []
      downloadInvoked := false, loadInvoked := false, loadingRefAfter := loadingRef }
  else
    match env.models.filter (fun m => m.modality = cat) with
    | [] =>
      let sA := applyPatch cur
        { error := some (some ("No " ++ categoryName cat ++ " model registered")) }
      let sB := applyPatch sA { state := some LoaderState.error }
      { result := false, snapshots := [sA, sB]
        downloadInvoked := false, loadInvoked := false, loadingRefAfter := false }
    | model :: _ =>
      let afterDl :
          Option String × List ModelLoaderState × ModelLoaderState × Bool :=
        if model.status ≠ ModelStatus.downloaded ∧ model.status ≠ ModelStatus.loaded then
          let sD := applyPatch cur { state := some LoaderState.downloading }
          let sP := applyPatch sD { progress := some 0 }
          let ev := progressFold model.id env.progressEvents sP
          match env.downloadResult with
          | .error msg => (some msg, sD :: sP :: ev.1, ev.2, true)
          | .ok _ =>
            let sOne := applyPatch ev.2 { progress := some 1 }
            (none, sD :: sP :: ev.1 ++ [sOne], sOne, true)
        else (none, [], cur, false)
      match afterDl.1 with
      | some msg =>
        let sA := applyPatch afterDl.2.2.1 { error := some (some msg) }
        let sB := applyPatch sA { state := some LoaderState.error }
        { result := false, snapshots := afterDl.2.1 ++ [sA, sB]
          downloadInvoked := afterDl.2.2.2, loadInvoked := false
          loadingRefAfter := false }
      | none =>
        let sLoad := applyPatch afterDl.2.2.1 { state := some LoaderState.loading }
        match env.loadResult with
        | .ok true =>
          { result := true
            snapshots := afterDl.2.1 ++ [sLoad, applyPatch sLoad { state := some LoaderState.ready }]
            downloadInvoked := afterDl.2.2.2, loadInvoked := true
            loadingRefAfter := false }
        | .ok false =>
          let sA := applyPatch sLoad { error := some (some "Failed to load model") }
          let sB := applyPatch sA { state := some LoaderState.error }
          { result := false, snapshots := afterDl.2.1 ++ [sLoad, sA, sB]
            downloadInvoked := afterDl.2.2.2, loadInvoked := true
            loadingRefAfter := false }
        | .error msg =>
          let sA := applyPatch sLoad { error := some (some msg) }
          let sB := applyPatch sA { state := some LoaderState.error }
          { result := false, snapshots := afterDl.2.1 ++ [sLoad, sA, sB]
            downloadInvoked := afterDl.2.2.2, loadInvoked := true
            loadingRefAfter := false }

/-- The distinct renderings ModelBanner can produce: nothing, the idle
view with its Download and Load call-to-action button, the download
progress-bar view, the loading-into-engine text view, or the error view
with its Retry button. -/
inductive BannerView
  | hidden
  | idleView (label : String)
  | downloadingView (label : String) (progress : ℚ)
  | loadingView (label : String)
  | errorView (error : Option String)
deriving DecidableEq, Repr

/-- Whether some registered model of the category has status downloaded or
loaded, as computed inside ModelBanner from ModelManager.getModels(). -/
def isDownloadedFor (models : List ModelInfo) (cat : ModelCategory) : Bool :=
  (models.filter (fun m => m.modality = cat)).any
    (fun m => m.status = ModelStatus.downloaded || m.status = ModelStatus.loaded)

/-- The ModelBanner component: renders nothing when ready; also renders
nothing when a model of the category is already on disk (downloaded or
loaded) and the state is idle or loading; otherwise renders the view
matching the state. -/
def modelBanner (models : List ModelInfo) (cat : ModelCategory)
    (state : LoaderState) (progress : ℚ) (error : Option String)
    (label : String) : BannerView :=
  if state = LoaderState.ready then BannerView.hidden
  else if isDownloadedFor models cat
      ∧ (state = LoaderState.idle ∨ state = LoaderState.loading) then
    BannerView.hidden
  else
    match state with
    | LoaderState.idle => BannerView.idleView label
    | LoaderState.downloading => BannerView.downloadingView label progress
    | LoaderState.loading => BannerView.loadingView label
    | LoaderState.ready => BannerView.hidden
    | LoaderState.error => BannerView.errorView error

/-- Biological sex field of the nutrition profile. -/
inductive Sex
  | female
  | male
deriving DecidableEq, Repr

/-- Activity level field of the nutrition profile. -/
inductive ActivityLevel
  | sedentary
  | light
  | moderate
  | active
  | very_active
deriving DecidableEq, Repr

/-- Goal field of the nutrition profile. -/
inductive Goal
  | lose
  | maintain
  | gain
deriving DecidableEq, Repr

/-- The nutrition profile (NutritionTab), numbers as rationals. -/
structure Profile where
  sex : Sex
  age : ℚ
  heightCm : ℚ
  weightKg : ℚ
  activity : ActivityLevel
  goal : Goal
  targetCalories : Option ℚ
  proteinPerKg : ℚ
  fatPercent : ℚ
deriving DecidableEq, Repr

/-- Activity multiplier applied to BMR to obtain TDEE. -/
def activityMultiplier : ActivityLevel → ℚ
  | .sedentary => 1.2
  | .light => 1.375
  | .moderate => 1.55
  | .active => 1.725
  | .very_active => 1.9

/-- Basal metabolic rate by the Mifflin-St Jeor formula (kg, cm, years):
base 10w + 6.25h - 5a, then +5 for male and -161 otherwise. -/
def calcBMR (profile : Profile) : ℚ :=
  let w := profile.weightKg
  let h := profile.heightCm
  let a := profile.age
  let base := 10 * w + 6.25 * h - 5 * a
  if profile.sex = Sex.male then base + 5 else base - 161

/-- Total daily energy expenditure: BMR times the activity multiplier. -/
def calcTDEE (profile : Profile) : ℚ :=
  calcBMR profile * activityMultiplier profile.activity

/-- Calorie delta applied for the goal (conservative deltas). -/
def goalDelta : Goal → ℚ
  | .lose => -400
  | .gain => 300
  | .maintain => 0

/-- Collapse consecutive duplicates in a list of loader states, giving the
sequence of distinct phases an observer of the snapshots sees. -/
def squeeze : List LoaderState → List LoaderState
  | [] => []
  | [a] => [a]
  | a :: b :: rest => if a = b then squeeze (b :: rest) else a :: squeeze (b :: rest)

/-- The polling observation made after the single in-flight run for the
category has completed with boolean outcome b: on success the manager
reports the model loaded and the shared state is ready, on failure the
manager reports nothing loaded and the shared state is error. -/
def completionObs (b : Bool) : Obs :=
  { loaded := b, st := if b then LoaderState.ready else LoaderState.error }

end FitnessCoach

namespace FitnessCoach

/-- Polling skips every observation in which the manager reports no loaded
model and the shared state is not error. -/
theorem pollLoop_append (pre l : List Obs)
    (h : ∀ o ∈ pre, o.loaded = false ∧ o.st ≠ LoaderState.error) :
    pollLoop (pre ++ l) = pollLoop l := by
  induction pre with
  | nil => rfl
  | cons o rest ih =>
    obtain ⟨h1, h2⟩ := h o (by simp)
    simp only [List.cons_append, pollLoop, h1, Bool.false_eq_true, if_false,
      if_neg h2]
    exact ih (fun x hx => h x (by simp [hx]))

/-- The progress subscription only patches progress: every snapshot it
produces, and the state it leaves behind, keep the loader state and error
of the state it started from. -/
theorem progressFold_state_error (mid : Nat) (events : List ProgressEvent)
    (s : ModelLoaderState) :
    (∀ t ∈ (progressFold mid events s).1,
        t.state = s.state ∧ t.error = s.error) ∧
    (progressFold mid events s).2.state = s.state ∧
    (progressFold mid events s).2.error = s.error := by
  induction events generalizing s with
  | nil => simp [progressFold]
  | cons e rest ih =>
    by_cases he : e.modelId = mid
    · have hs : (applyPatch s { progress := some (e.progress.getD 0) }).state
          = s.state := rfl
      have herr : (applyPatch s { progress := some (e.progress.getD 0) }).error
          = s.error := rfl
      obtain ⟨ha, hb, hc⟩ := ih (applyPatch s { progress := some (e.progress.getD 0) })
      refine ⟨?_, ?_, ?_⟩
      · intro t ht
        simp only [progressFold, he, if_true, List.mem_cons] at ht
        rcases ht with rfl | ht
        · exact ⟨hs, herr⟩
        · exact ⟨(ha t ht).1.trans hs, (ha t ht).2.trans herr⟩
      · simp only [progressFold, he, if_true]
        exact hb.trans hs
      · simp only [progressFold, he, if_true]
        exact hc.trans herr
    · simpa only [progressFold, he, if_false] using ih s

/-- The finally clause of the load phase always leaves the in-flight
marker clear. -/
theorem loadPhase_inFlightAfter (env : EnsureEnv) (pre : List ModelLoaderState)
    (base : ModelLoaderState) (dl : Bool) :
    (loadPhase env pre base dl).inFlightAfter = false := by
  rcases h : env.loadResult with msg | b
  · simp [loadPhase, h]
  · cases b <;> simp [loadPhase, h]

/-- Every exit of the ensure body leaves the in-flight marker clear. -/
theorem ensureBody_inFlightAfter (cat : ModelCategory) (env : EnsureEnv)
    (cur : ModelLoaderState) :
    (ensureBody cat env cur).inFlightAfter = false := by
  simp only [ensureBody]
  split
  · rfl
  · split
    · split
      · rfl
      · exact loadPhase_inFlightAfter _ _ _ _
    · exact loadPhase_inFlightAfter _ _ _ _

/-- The outcome of the load phase: a thrown exception yields a false
result with state error carrying the exception message; a false return
yields state error with the fixed failure message; a true return yields
state ready and a true result. -/
theorem loadPhase_spec (env : EnsureEnv) (pre : List ModelLoaderState)
    (base : ModelLoaderState) (dl : Bool) :
    (∀ msg, env.loadResult = Except.error msg →
      (loadPhase env pre base dl).result = some false ∧
      (loadPhase env pre base dl).finalLoader.state = LoaderState.error ∧
      (loadPhase env pre base dl).finalLoader.error = some msg) ∧
    (env.loadResult = Except.ok false →
      (loadPhase env pre base dl).result = some false ∧
      (loadPhase env pre base dl).finalLoader.state = LoaderState.error ∧
      (loadPhase env pre base dl).finalLoader.error
        = some "Failed to load model") ∧
    (env.loadResult = Except.ok true →
      (loadPhase env pre base dl).result = some true ∧
      (loadPhase env pre base dl).finalLoader.state = LoaderState.ready) := by
  refine ⟨?_, ?_, ?_⟩
  · intro msg h
    simp [loadPhase, h, applyPatch]
  · intro h
    simp [loadPhase, h, applyPatch]
  · intro h
    simp [loadPhase, h, applyPatch]

/-- Claim C2: for every category, after the change-notification
reconciliation the loader state is ready exactly when the external manager
reports a loaded model for that category; when the manager reports the
model unloaded, a previously ready entry becomes idle with its other
fields unchanged (the handler alone does this, no ensure involved); and
the initial state at mount satisfies the same ready-iff-loaded relation. -/
theorem reconcile_ready_iff_loaded (q : ModelCategory → Bool)
    (loaders : List (ModelCategory × ModelLoaderState)) :
    (∀ e ∈ reconcile q loaders, (e.2.state = LoaderState.ready ↔ q e.1 = true)) ∧
    (∀ (cat : ModelCategory) (s : ModelLoaderState),
      q cat = false → s.state = LoaderState.ready →
      reconcileEntry q (cat, s) = (cat, { s with state := LoaderState.idle })) ∧
    (∀ cat : ModelCategory,
      (getInitialState q cat).state = LoaderState.ready ↔ q cat = true) := by
  refine ⟨?_, ?_, ?_⟩
  · intro e he
    simp only [reconcile, List.mem_map] at he
    obtain ⟨a, _, rfl⟩ := he
    by_cases hq : q a.1 <;> by_cases hs : a.2.state = LoaderState.ready <;>
      simp [reconcileEntry, hq, hs]
  · intro cat s hq hs
    simp [reconcileEntry, hq, hs]
  · intro cat
    by_cases hq : q cat <;> simp [getInitialState, hq]

/-- Witness for C2 at a concrete input: a ready entry for a category the
manager no longer reports loaded is reconciled to idle. -/
theorem reconcile_ready_iff_loaded_witness :
    reconcileEntry (fun _ => false)
        (ModelCategory.language, ⟨LoaderState.ready, 1, none⟩)
      = (ModelCategory.language, ⟨LoaderState.idle, 1, none⟩) :=
  (reconcile_ready_iff_loaded (fun _ => false) []).2.1
    ModelCategory.language ⟨LoaderState.ready, 1, none⟩ rfl rfl

/-- Claim C3: when the external manager already reports a loaded model for
the category, ensure short-circuits: it resolves true, sets the state to
ready, and invokes neither the download nor the load call. -/
theorem ensure_already_loaded (cat : ModelCategory) (env : EnsureEnv)
    (inFlight : Bool) (cur : ModelLoaderState)
    (h : env.alreadyLoaded = true) :
    (ensure cat env inFlight cur).result = some true ∧
    (ensure cat env inFlight cur).finalLoader.state = LoaderState.ready ∧
    (ensure cat env inFlight cur).downloadInvoked = false ∧
    (ensure cat env inFlight cur).loadInvoked = false := by
  simp [ensure, h, applyPatch]

/-- Witness for C3 at a concrete input. -/
theorem ensure_already_loaded_witness :
    (ensure ModelCategory.language
        ⟨true, [], [], Except.ok (), Except.ok true, []⟩ false
        ⟨LoaderState.idle, 0, none⟩).result = some true ∧
    (ensure ModelCategory.language
        ⟨true, [], [], Except.ok (), Except.ok true, []⟩ false
        ⟨LoaderState.idle, 0, none⟩).finalLoader.state = LoaderState.ready ∧
    (ensure ModelCategory.language
        ⟨true, [], [], Except.ok (), Except.ok true, []⟩ false
        ⟨LoaderState.idle, 0, none⟩).downloadInvoked = false ∧
    (ensure ModelCategory.language
        ⟨true, [], [], Except.ok (), Except.ok true, []⟩ false
        ⟨LoaderState.idle, 0, none⟩).loadInvoked = false :=
  ensure_already_loaded ModelCategory.language
    ⟨true, [], [], Except.ok (), Except.ok true, []⟩ false
    ⟨LoaderState.idle, 0, none⟩ rfl

/-- Claim C4: when no model is loaded and the registered model list has no
model of the category, ensure resolves false and leaves the category in
state error with a message that contains the category name. -/
theorem ensure_no_model_error (cat : ModelCategory) (env : EnsureEnv)
    (cur : ModelLoaderState)
    (h1 : env.alreadyLoaded = false)
    (h2 : env.models.filter (fun m => m.modality = cat) = []) :
    (ensure cat env false cur).result = some false ∧
    (ensure cat env false cur).finalLoader.state = LoaderState.error ∧
    (ensure cat env false cur).finalLoader.error
      = some ("No " ++ categoryName cat ++ " model registered") ∧
    ∃ pre post, (ensure cat env false cur).finalLoader.error
      = some (pre ++ categoryName cat ++ post) := by
  refine ⟨?_, ?_, ?_, "No ", " model registered", ?_⟩ <;>
    simp [ensure, ensureBody, h1, h2, applyPatch]

/-- Witness for C4 at a concrete input: an empty registry. -/
theorem ensure_no_model_error_witness :
    (ensure ModelCategory.audio
        ⟨false, [], [], Except.ok (), Except.ok true, []⟩ false
        ⟨LoaderState.idle, 0, none⟩).result = some false ∧
    (ensure ModelCategory.audio
        ⟨false, [], [], Except.ok (), Except.ok true, []⟩ false
        ⟨LoaderState.idle, 0, none⟩).finalLoader.error
      = some "No Audio model registered" := by
  have h := ensure_no_model_error ModelCategory.audio
    ⟨false, [], [], Except.ok (), Except.ok true, []⟩
    ⟨LoaderState.idle, 0, none⟩ rfl rfl
  exact ⟨h.1, h.2.2.1⟩

/-- Claim C7: the in-flight marker discipline.  Any run that passes the
in-flight check (manager reports nothing loaded, category not yet marked)
ends with the marker cleared, whatever the environment did; and a run that
finds the category already marked never invokes the download or load call,
so at most one download/load sequence per category is active. -/
theorem ensure_inflight_guard (cat : ModelCategory) (env : EnsureEnv)
    (cur : ModelLoaderState)
    (h1 : env.alreadyLoaded = false) :
    (ensure cat env false cur).inFlightAfter = false ∧
    (ensure cat env true cur).downloadInvoked = false ∧
    (ensure cat env true cur).loadInvoked = false := by
  refine ⟨?_, ?_, ?_⟩
  · simp [ensure, h1, ensureBody_inFlightAfter]
  · simp [ensure, h1]
  · simp [ensure, h1]

/-- Witness for C7 at a concrete input: a run whose load call throws
still clears the marker. -/
theorem ensure_inflight_guard_witness :
    (ensure ModelCategory.language
        ⟨false, [⟨3, ModelCategory.language, ModelStatus.notDownloaded⟩], [],
          Except.ok (), Except.error "OOM", []⟩ false
        ⟨LoaderState.idle, 0, none⟩).inFlightAfter = false :=
  (ensure_inflight_guard ModelCategory.language
    ⟨false, [⟨3, ModelCategory.language, ModelStatus.notDownloaded⟩], [],
      Except.ok (), Except.error "OOM", []⟩
    ⟨LoaderState.idle, 0, none⟩ rfl).1

/-- Claim C9: the per-component hook's ensure, called while its own
loadingRef is set (and the manager does not yet report the model loaded),
returns false immediately: no state, progress or error update is issued
and neither external call is invoked. -/
theorem ensureLocal_inflight_false (cat : ModelCategory) (env : EnsureEnv)
    (cur : ModelLoaderState)
    (h1 : env.alreadyLoaded = false) :
    (ensureLocal cat env true cur).result = false ∧
    (ensureLocal cat env true cur).snapshots = [] ∧
    (ensureLocal cat env true cur).downloadInvoked = false ∧
    (ensureLocal cat env true cur).loadInvoked = false := by
  simp [ensureLocal, h1]

/-- Witness for C9 at a concrete input. -/
theorem ensureLocal_inflight_false_witness :
    (ensureLocal ModelCategory.language
        ⟨false, [⟨3, ModelCategory.language, ModelStatus.notDownloaded⟩], [],
          Except.ok (), Except.ok true, []⟩ true
        ⟨LoaderState.downloading, 0, none⟩).result = false ∧
    (ensureLocal ModelCategory.language
        ⟨false, [⟨3, ModelCategory.language, ModelStatus.notDownloaded⟩], [],
          Except.ok (), Except.ok true, []⟩ true
        ⟨LoaderState.downloading, 0, none⟩).snapshots = [] :=
  ⟨(ensureLocal_inflight_false ModelCategory.language
      ⟨false, [⟨3, ModelCategory.language, ModelStatus.notDownloaded⟩], [],
        Except.ok (), Except.ok true, []⟩
      ⟨LoaderState.downloading, 0, none⟩ rfl).1,
   (ensureLocal_inflight_false ModelCategory.language
      ⟨false, [⟨3, ModelCategory.language, ModelStatus.notDownloaded⟩], [],
        Except.ok (), Except.ok true, []⟩
      ⟨LoaderState.downloading, 0, none⟩ rfl).2.1⟩

/-- Squeezing a run of identical states at the head absorbs the run. -/
theorem squeeze_cons_absorb (a : LoaderState) (L suffix : List LoaderState)
    (h : ∀ x ∈ L, x = a) :
    squeeze (a :: (L ++ suffix)) = squeeze (a :: suffix) := by
  induction L with
  | nil => rfl
  | cons x rest ih =>
    have hx : x = a := h x (by simp)
    subst hx
    have hstep : squeeze (x :: x :: (rest ++ suffix))
        = squeeze (x :: (rest ++ suffix)) := by
      simp [squeeze]
    simp only [List.cons_append]
    rw [hstep]
    exact ih (fun y hy => h y (by simp [hy]))

/-- Claim C1: a call to ensure for a category already marked in-flight
(while the manager does not yet report the model loaded) starts no second
download/load sequence and issues no state update; it polls the shared
state, skipping observations in which nothing is loaded and the state is
not error, and resolves with the boolean outcome of the single in-flight
run as soon as its completion is observed — so every concurrent caller
resolves to that same boolean. -/
theorem ensure_inflight_coalesces (cat : ModelCategory) (env : EnsureEnv)
    (cur : ModelLoaderState)
    (h1 : env.alreadyLoaded = false) :
    (ensure cat env true cur).downloadInvoked = false ∧
    (ensure cat env true cur).loadInvoked = false ∧
    (ensure cat env true cur).snapshots = [] ∧
    ∀ (b : Bool) (pre rest : List Obs),
      env.pollObs = pre ++ completionObs b :: rest →
      (∀ o ∈ pre, o.loaded = false ∧ o.st ≠ LoaderState.error) →
      (ensure cat env true cur).result = some b := by
  refine ⟨by simp [ensure, h1], by simp [ensure, h1], by simp [ensure, h1], ?_⟩
  intro b pre rest hobs hpre
  have hres : (ensure cat env true cur).result = pollLoop env.pollObs := by
    simp [ensure, h1]
  rw [hres, hobs, pollLoop_append _ _ hpre]
  cases b <;> simp [pollLoop, completionObs]

/-- Witness for C1 at a concrete input: one pending observation, then the
in-flight run completes successfully; the waiting caller resolves true. -/
theorem ensure_inflight_coalesces_witness :
    (ensure ModelCategory.language
        ⟨false, [], [], Except.ok (), Except.ok true,
          [⟨false, LoaderState.downloading⟩, ⟨true, LoaderState.ready⟩]⟩ true
        ⟨LoaderState.idle, 0, none⟩).result = some true ∧
    (ensure ModelCategory.language
        ⟨false, [], [], Except.ok (), Except.ok true,
          [⟨false, LoaderState.downloading⟩, ⟨true, LoaderState.ready⟩]⟩ true
        ⟨LoaderState.idle, 0, none⟩).downloadInvoked = false :=
  ⟨(ensure_inflight_coalesces ModelCategory.language
      ⟨false, [], [], Except.ok (), Except.ok true,
        [⟨false, LoaderState.downloading⟩, ⟨true, LoaderState.ready⟩]⟩
      ⟨LoaderState.idle, 0, none⟩ rfl).2.2.2 true
      [⟨false, LoaderState.downloading⟩] [] rfl (by decide),
   (ensure_inflight_coalesces ModelCategory.language
      ⟨false, [], [], Except.ok (), Except.ok true,
        [⟨false, LoaderState.downloading⟩, ⟨true, LoaderState.ready⟩]⟩
      ⟨LoaderState.idle, 0, none⟩ rfl).1⟩

/-- Claim C5: once ensure reaches the load call (a model is registered and
any required download succeeded), a thrown exception puts the category in
state error with the exception message and resolves false; a false return
puts it in state error with the message Failed to load model and resolves
false; a true return puts it in state ready and resolves true. -/
theorem ensure_load_outcomes (cat : ModelCategory) (env : EnsureEnv)
    (cur : ModelLoaderState) (model : ModelInfo) (rest : List ModelInfo)
    (h1 : env.alreadyLoaded = false)
    (h2 : env.models.filter (fun m => m.modality = cat) = model :: rest)
    (h3 : env.downloadResult = Except.ok ()) :
    (∀ msg, env.loadResult = Except.error msg →
      (ensure cat env false cur).result = some false ∧
      (ensure cat env false cur).finalLoader.state = LoaderState.error ∧
      (ensure cat env false cur).finalLoader.error = some msg) ∧
    (env.loadResult = Except.ok false →
      (ensure cat env false cur).result = some false ∧
      (ensure cat env false cur).finalLoader.state = LoaderState.error ∧
      (ensure cat env false cur).finalLoader.error
        = some "Failed to load model") ∧
    (env.loadResult = Except.ok true →
      (ensure cat env false cur).result = some true ∧
      (ensure cat env false cur).finalLoader.state = LoaderState.ready) := by
  by_cases hs : model.status ≠ ModelStatus.downloaded
      ∧ model.status ≠ ModelStatus.loaded
  · have hE : ensure cat env false cur
        = loadPhase env
            (applyPatch cur { state := some LoaderState.downloading, progress := some 0 } ::
              (progressFold model.id env.progressEvents
                  (applyPatch cur { state := some LoaderState.downloading, progress := some 0 })).1 ++
                [applyPatch (progressFold model.id env.progressEvents
                    (applyPatch cur { state := some LoaderState.downloading, progress := some 0 })).2
                  { progress := some 1 }])
            (applyPatch (progressFold model.id env.progressEvents
                (applyPatch cur { state := some LoaderState.downloading, progress := some 0 })).2
              { progress := some 1 })
            true := by
      simp only [ensure, h1, Bool.false_eq_true, if_false, ensureBody, h2, h3]
      rw [if_pos hs]
    rw [hE]
    exact loadPhase_spec env _ _ _
  · have hE : ensure cat env false cur = loadPhase env [] cur false := by
      simp only [ensure, h1, Bool.false_eq_true, if_false, ensureBody, h2]
      rw [if_neg hs]
    rw [hE]
    exact loadPhase_spec env _ _ _

/-- Witness for C5 at a concrete input: the load call throws OOM; the
final state is error with message OOM and the result is false. -/
theorem ensure_load_outcomes_witness :
    (ensure ModelCategory.language
        ⟨false, [⟨3, ModelCategory.language, ModelStatus.downloaded⟩], [],
          Except.ok (), Except.error "OOM", []⟩ false
        ⟨LoaderState.idle, 0, none⟩).result = some false ∧
    (ensure ModelCategory.language
        ⟨false, [⟨3, ModelCategory.language, ModelStatus.downloaded⟩], [],
          Except.ok (), Except.error "OOM", []⟩ false
        ⟨LoaderState.idle, 0, none⟩).finalLoader.state = LoaderState.error ∧
    (ensure ModelCategory.language
        ⟨false, [⟨3, ModelCategory.language, ModelStatus.downloaded⟩], [],
          Except.ok (), Except.error "OOM", []⟩ false
        ⟨LoaderState.idle, 0, none⟩).finalLoader.error = some "OOM" :=
  (ensure_load_outcomes ModelCategory.language
    ⟨false, [⟨3, ModelCategory.language, ModelStatus.downloaded⟩], [],
      Except.ok (), Except.error "OOM", []⟩
    ⟨LoaderState.idle, 0, none⟩
    ⟨3, ModelCategory.language, ModelStatus.downloaded⟩ [] rfl rfl rfl).1
    "OOM" rfl

/-- Claim C6: an ensure run whose selected model is neither downloaded nor
loaded and whose download and load calls succeed resolves true with final
state ready and progress 1; its snapshot sequence ends with a progress-1
snapshot still in the downloading phase, strictly before the loading and
ready snapshots, all earlier snapshots being downloading-phase ones; and
the distinct phases observed from an idle start are exactly
idle, downloading, loading, ready. -/
theorem ensure_download_trace (cat : ModelCategory) (env : EnsureEnv)
    (cur : ModelLoaderState) (model : ModelInfo) (rest : List ModelInfo)
    (h1 : env.alreadyLoaded = false)
    (h2 : env.models.filter (fun m => m.modality = cat) = model :: rest)
    (h3 : model.status ≠ ModelStatus.downloaded)
    (h4 : model.status ≠ ModelStatus.loaded)
    (h5 : env.downloadResult = Except.ok ())
    (h6 : env.loadResult = Except.ok true)
    (h7 : cur.state = LoaderState.idle) :
    (ensure cat env false cur).result = some true ∧
    (ensure cat env false cur).finalLoader.state = LoaderState.ready ∧
    (ensure cat env false cur).finalLoader.progress = 1 ∧
    (∃ pre, (ensure cat env false cur).snapshots
        = pre ++ [⟨LoaderState.downloading, 1, cur.error⟩,
            ⟨LoaderState.loading, 1, cur.error⟩,
            ⟨LoaderState.ready, 1, cur.error⟩] ∧
      ∀ s ∈ pre, s.state = LoaderState.downloading) ∧
    squeeze ((cur :: (ensure cat env false cur).snapshots).map
        (fun s => s.state))
      = [LoaderState.idle, LoaderState.downloading, LoaderState.loading,
         LoaderState.ready] := by
  have hcond : model.status ≠ ModelStatus.downloaded
      ∧ model.status ≠ ModelStatus.loaded := ⟨h3, h4⟩
  rcases hPair : progressFold model.id env.progressEvents
      (applyPatch cur { state := some LoaderState.downloading, progress := some 0 })
    with ⟨evL, evF⟩
  have hPF := progressFold_state_error model.id env.progressEvents
    (applyPatch cur { state := some LoaderState.downloading, progress := some 0 })
  rw [hPair] at hPF
  obtain ⟨hevMem, hevFs, hevFe⟩ := hPF
  have hFs : evF.state = LoaderState.downloading := hevFs
  have hFe : evF.error = cur.error := hevFe
  have hs3 : applyPatch evF { progress := some 1 }
      = (⟨LoaderState.downloading, 1, cur.error⟩ : ModelLoaderState) := by
    simp [applyPatch, hFs, hFe]
  have hE : ensure cat env false cur
      = loadPhase env
          (applyPatch cur { state := some LoaderState.downloading, progress := some 0 } ::
            (progressFold model.id env.progressEvents
                (applyPatch cur { state := some LoaderState.downloading, progress := some 0 })).1 ++
              [applyPatch (progressFold model.id env.progressEvents
                  (applyPatch cur { state := some LoaderState.downloading, progress := some 0 })).2
                { progress := some 1 }])
          (applyPatch (progressFold model.id env.progressEvents
              (applyPatch cur { state := some LoaderState.downloading, progress := some 0 })).2
            { progress := some 1 })
          true := by
    simp only [ensure, h1, Bool.false_eq_true, if_false, ensureBody, h2, h5]
    rw [if_pos hcond]
  rw [hE]
  simp only [hPair, hs3]
  simp only [loadPhase, h6]
  have hload : applyPatch (⟨LoaderState.downloading, 1, cur.error⟩ : ModelLoaderState)
      { state := some LoaderState.loading }
      = (⟨LoaderState.loading, 1, cur.error⟩ : ModelLoaderState) := by
    simp [applyPatch]
  have hready : applyPatch (⟨LoaderState.loading, 1, cur.error⟩ : ModelLoaderState)
      { state := some LoaderState.ready }
      = (⟨LoaderState.ready, 1, cur.error⟩ : ModelLoaderState) := by
    simp [applyPatch]
  rw [hload, hready]
  refine ⟨by trivial, by trivial, by trivial, ?_, ?_⟩
  · refine ⟨applyPatch cur { state := some LoaderState.downloading, progress := some 0 } :: evL,
      ?_, ?_⟩
    · simp [List.cons_append, List.append_assoc]
    · intro s hs
      rcases List.mem_cons.mp hs with rfl | hsm
      · rfl
      · exact (hevMem s hsm).1
  · have hsq1 : ∀ T, squeeze (LoaderState.idle :: LoaderState.downloading :: T)
        = LoaderState.idle :: squeeze (LoaderState.downloading :: T) := by
      intro T
      simp [squeeze]
    have hmap : ((cur :: (applyPatch cur { state := some LoaderState.downloading, progress := some 0 } ::
          evL ++ [(⟨LoaderState.downloading, 1, cur.error⟩ : ModelLoaderState)] ++
            [(⟨LoaderState.loading, 1, cur.error⟩ : ModelLoaderState),
             (⟨LoaderState.ready, 1, cur.error⟩ : ModelLoaderState)])).map
          (fun s => s.state))
        = LoaderState.idle :: LoaderState.downloading ::
            ((evL.map (fun s => s.state) ++ [LoaderState.downloading]) ++
              [LoaderState.loading, LoaderState.ready]) := by
      simp [applyPatch, h7, List.append_assoc]
    rw [hmap, hsq1,
      squeeze_cons_absorb LoaderState.downloading
        (evL.map (fun s => s.state) ++ [LoaderState.downloading])
        [LoaderState.loading, LoaderState.ready] ?hall]
    · simp [squeeze]
    · intro x hx
      rcases List.mem_append.mp hx with hxm | hxr
      · obtain ⟨s, hsm, rfl⟩ := List.mem_map.mp hxm
        exact (hevMem s hsm).1
      · simpa using hxr

/-- Witness for C6 at a concrete input: one registered not-downloaded
model, one progress event, both external calls succeed. -/
theorem ensure_download_trace_witness :
    (ensure ModelCategory.language
        ⟨false, [⟨7, ModelCategory.language, ModelStatus.notDownloaded⟩],
          [⟨7, some (1/2)⟩], Except.ok (), Except.ok true, []⟩ false
        ⟨LoaderState.idle, 0, none⟩).result = some true ∧
    squeeze (((⟨LoaderState.idle, 0, none⟩ : ModelLoaderState) ::
        (ensure ModelCategory.language
          ⟨false, [⟨7, ModelCategory.language, ModelStatus.notDownloaded⟩],
            [⟨7, some (1/2)⟩], Except.ok (), Except.ok true, []⟩ false
          ⟨LoaderState.idle, 0, none⟩).snapshots).map (fun s => s.state))
      = [LoaderState.idle, LoaderState.downloading, LoaderState.loading,
         LoaderState.ready] :=
  ⟨(ensure_download_trace ModelCategory.language
      ⟨false, [⟨7, ModelCategory.language, ModelStatus.notDownloaded⟩],
        [⟨7, some (1/2)⟩], Except.ok (), Except.ok true, []⟩
      ⟨LoaderState.idle, 0, none⟩
      ⟨7, ModelCategory.language, ModelStatus.notDownloaded⟩ []
      rfl rfl (by decide) (by decide) rfl rfl rfl).1,
   (ensure_download_trace ModelCategory.language
      ⟨false, [⟨7, ModelCategory.language, ModelStatus.notDownloaded⟩],
        [⟨7, some (1/2)⟩], Except.ok (), Except.ok true, []⟩
      ⟨LoaderState.idle, 0, none⟩
      ⟨7, ModelCategory.language, ModelStatus.notDownloaded⟩ []
      rfl rfl (by decide) (by decide) rfl rfl rfl).2.2.2.2⟩

/-- Counterexample to C8 as stated: two calls agreeing on state, progress,
error and label render differently, because the component also consults
the external manager's model list — with a downloaded model of the
category on disk the idle banner is suppressed, with an empty registry it
is shown. -/
theorem modelBanner_not_function_of_four :
    modelBanner [⟨0, ModelCategory.language, ModelStatus.downloaded⟩]
        ModelCategory.language LoaderState.idle 0 none "Chat"
      ≠ modelBanner [] ModelCategory.language LoaderState.idle 0 none "Chat" := by
  decide

/-- Claim C8 (amended): ModelBanner is a pure function of state, progress,
error, label, the category and the manager's model list; it renders
nothing when state is ready, and also when some model of the category has
status downloaded or loaded while state is idle or loading; otherwise it
renders exactly the one view matching the state: the idle call-to-action
view, the download progress view, the loading text view, or the error
view with retry. -/
theorem modelBanner_cases (models : List ModelInfo) (cat : ModelCategory)
    (state : LoaderState) (progress : ℚ) (err : Option String)
    (label : String) :
    (modelBanner models cat state progress err label = BannerView.hidden ↔
      (state = LoaderState.ready ∨
        (isDownloadedFor models cat = true ∧
          (state = LoaderState.idle ∨ state = LoaderState.loading)))) ∧
    (state = LoaderState.downloading →
      modelBanner models cat state progress err label
        = BannerView.downloadingView label progress) ∧
    (state = LoaderState.error →
      modelBanner models cat state progress err label
        = BannerView.errorView err) ∧
    (state = LoaderState.idle → isDownloadedFor models cat = false →
      modelBanner models cat state progress err label
        = BannerView.idleView label) ∧
    (state = LoaderState.loading → isDownloadedFor models cat = false →
      modelBanner models cat state progress err label
        = BannerView.loadingView label) := by
  cases state <;> by_cases hd : isDownloadedFor models cat <;>
    simp [modelBanner, hd]

/-- Witness for C8 at a concrete input: with no model on disk and state
idle, the banner is the idle call-to-action view. -/
theorem modelBanner_cases_witness :
    modelBanner [] ModelCategory.language LoaderState.idle 0 none "Chat"
      = BannerView.idleView "Chat" :=
  (modelBanner_cases [] ModelCategory.language LoaderState.idle 0 none
    "Chat").2.2.2.1 rfl rfl

/-- Claim C10: calcBMR is exactly the Mifflin-St Jeor formula, calcTDEE is
exactly BMR times the activity multiplier, and the multiplier table is
1.2, 1.375, 1.55, 1.725, 1.9 for the five activity levels. -/
theorem calcBMR_calcTDEE_mifflin (p : Profile) :
    calcBMR p = 10 * p.weightKg + 6.25 * p.heightCm - 5 * p.age
      + (if p.sex = Sex.male then 5 else -161) ∧
    calcTDEE p = calcBMR p * activityMultiplier p.activity ∧
    activityMultiplier ActivityLevel.sedentary = 1.2 ∧
    activityMultiplier ActivityLevel.light = 1.375 ∧
    activityMultiplier ActivityLevel.moderate = 1.55 ∧
    activityMultiplier ActivityLevel.active = 1.725 ∧
    activityMultiplier ActivityLevel.very_active = 1.9 := by
  refine ⟨?_, rfl, rfl, rfl, rfl, rfl, rfl⟩
  by_cases h : p.sex = Sex.male <;> simp [calcBMR, h]
  all_goals ring

end FitnessCoach
